import Mathlib

/-!
Verification development for the monday-cli GraphQL request pipeline
(src/monday_cli/client/graphql_client.py, src/monday_cli/utils/rate_limit.py,
src/monday_cli/utils/retry.py, src/monday_cli/utils/error_handler.py,
src/monday_cli/constants.py).

The Python code is shallowly embedded: JSON values become an inductive type,
the stateful rate limiter becomes explicit state passing over rational-valued
clock readings, and exception-raising code returns Except values.
-/

namespace MondayCli

/-- Model of a JSON value as produced by `response.json()`.  Numbers are
modelled as integers, which covers every value the claims exercise. -/
inductive JsonVal where
  | null
  | bool (b : Bool)
  | num (n : ℤ)
  | str (s : String)
  | arr (xs : List JsonVal)
  | obj (fields : List (String × JsonVal))

/-- Python dict key lookup (`d.get(key)`): first matching key, keys are unique
in a dict so first-match is faithful. -/
def lookupField : List (String × JsonVal) → String → Option JsonVal
  | [], _ => none
  | (k, x) :: rest, key => if k = key then some x else lookupField rest key

/-- Lookup of `key` in a JSON value; `none` both when the key is absent and
when the value is not an object (Python `key in d` on a non-dict list is
falsy for the string keys used here). -/
def jsonGet (v : JsonVal) (key : String) : Option JsonVal :=
  match v with
  | .obj fields => lookupField fields key
  | _ => none

/-- Python truthiness of a JSON value (`if complexity:`, `if response_data["errors"]:`,
`if variables:`). -/
def pyTruthy : JsonVal → Bool
  | .null => false
  | .bool b => b
  | .num n => decide (n ≠ 0)
  | .str s => decide (s ≠ "")
  | .arr xs => !xs.isEmpty
  | .obj fs => !fs.isEmpty

/-- Simplified rendering standing in for Python `str(err)`; it is only the
fallback of `err.get("message", str(err))` and no claim depends on the exact
rendering of a message-less error object. -/
def pyStr : JsonVal → String
  | .null => "None"
  | .bool b => cond b "True" "False"
  | .num n => toString n
  | .str s => s
  | .arr _ => "<list>"
  | .obj _ => "<dict>"

/-- Value of a decimal digit run, most significant first. -/
def digitsVal : List Char → ℕ → ℕ
  | [], acc => acc
  | c :: cs, acc => digitsVal cs (acc * 10 + (c.toNat - 48))

/-- A nonempty all-digit run parses to its value, anything else fails. -/
def parseDigits (l : List Char) : Option ℕ :=
  if !l.isEmpty && l.all Char.isDigit then some (digitsVal l 0) else none

/-- Model of Python `int(s)` on a string: surrounding whitespace is stripped,
an optional sign is allowed, the remainder must be a nonempty digit run;
`none` models a ValueError.  (Digit-group underscores are not modelled; no
claim uses them.) -/
def pyInt (s : String) : Option ℤ :=
  let cs := s.toList.dropWhile Char.isWhitespace
  let cs := ((cs.reverse.dropWhile Char.isWhitespace).reverse)
  match cs with
  | '+' :: ds => (parseDigits ds).map Int.ofNat
  | '-' :: ds => (parseDigits ds).map (fun n => -(n : ℤ))
  | ds => (parseDigits ds).map Int.ofNat

/-- ASCII lower-casing of one character; Python `str.lower()` is
Unicode-aware, but every message the code inspects is ASCII. -/
def charLower (c : Char) : Char :=
  if 'A' ≤ c ∧ c ≤ 'Z' then Char.ofNat (c.toNat + 32) else c

/-- Model of Python `msg.lower()`. -/
def strLower (s : String) : String :=
  String.mk (s.toList.map charLower)

/-- Check whether `pat` occurs as a contiguous substring of `s`
(Python `pat in s`). -/
def listPrefixOf : List Char → List Char → Bool
  | [], _ => true
  | _ :: _, [] => false
  | a :: as, b :: bs => a = b && listPrefixOf as bs

/-- Helper for `hasSubstr`: does `pat` occur at some position of `l`. -/
def listHasSub (pat : List Char) : List Char → Bool
  | [] => listPrefixOf pat []
  | l@(_ :: rest) => listPrefixOf pat l || listHasSub pat rest

/-- Python substring containment `pat in s`. -/
def hasSubstr (s pat : String) : Bool :=
  listHasSub pat.toList s.toList

/-! ## Constants (src/monday_cli/constants.py) -/

def DEFAULT_RATE_LIMIT_CALLS : ℕ := 60
def DEFAULT_RATE_LIMIT_PERIOD : ℚ := 60
def COMPLEXITY_WARNING_THRESHOLD : ℤ := 1000000
def DEFAULT_RETRY_MAX_ATTEMPTS : ℕ := 3
def DEFAULT_RETRY_BACKOFF_FACTOR : ℚ := 2
def DEFAULT_RETRY_MIN_WAIT : ℚ := 1
def DEFAULT_RETRY_MAX_WAIT : ℚ := 60

/-! ## Error taxonomy (src/monday_cli/utils/error_handler.py)

The five classified error kinds raised by `_make_request`: AuthenticationError,
RateLimitError(retry_after), ComplexityError, NetworkError, MondayAPIError
(message, optional raw response). -/

inductive ClassifiedError where
  | authentication (msg : String)
  | rateLimited (retryAfter : Option ℤ)
  | complexity (msg : String)
  | network (msg : String)
  | apiError (msg : String) (response : Option JsonVal)

/-- Outcome of one Python-level `_make_request` call: either a classified
error from the pipeline's own taxonomy, or an uncaught Python exception
(`int()` ValueError on an unparseable Retry-After header; TypeError when a
truthy non-list `errors` value is iterated). -/
inductive RequestError where
  | classified (e : ClassifiedError)
  | pyValueError (s : String)
  | pyTypeError (s : String)

/-- Retry eligibility, from `create_retry_decorator`'s
`retry_if_exception_type((httpx.TimeoutException, httpx.NetworkError,
httpx.ConnectError, NetworkError, RateLimitError))` restricted to the
classified errors `_make_request` can raise: only NetworkError and
RateLimitError are retried. -/
def isRetryable : ClassifiedError → Bool
  | .network _ => true
  | .rateLimited _ => true
  | _ => false

/-- Retry eligibility at the `_make_request` outcome level: uncaught Python
exceptions (ValueError, TypeError) are not in the retried exception tuple. -/
def reqRetryable : RequestError → Bool
  | .classified e => isRetryable e
  | .pyValueError _ => false
  | .pyTypeError _ => false

/-! ## Rate limiter (src/monday_cli/utils/rate_limit.py)

`MondayRateLimiter.__call__.wrapper` evicts stale timestamps, possibly sleeps,
re-evicts, appends the current time, and then invokes the wrapped function.
Clock readings are modelled as rationals supplied from outside, constrained by
`validStep`: real time strictly increases between successive `time.time()`
calls, and `time.sleep(d)` guarantees at least `d` elapses. -/

/-- The `while self.call_times and self.call_times[0] < current_time - self.period:
self.call_times.popleft()` loop: drop leading timestamps strictly older than
`now - period`. -/
def evictOld (period now : ℚ) : List ℚ → List ℚ
  | [] => []
  | t :: rest => if t < now - period then evictOld period now rest else t :: rest

/-- State of a `MondayRateLimiter` plus ghost fields: `history` records every
timestamp ever appended to the deque (the recorded calls), `lastTime` the
latest clock reading observed. -/
structure LimiterState where
  call_times : List ℚ
  history : List ℚ
  lastTime : ℚ
deriving DecidableEq

/-- The clock readings one wrapper invocation consumes: `t1` on entry,
`t2` after the (possible) sleep in the full branch, `t3` for the appended
`time.time()` value. -/
structure AdmitTimes where
  t1 : ℚ
  t2 : ℚ
  t3 : ℚ
deriving DecidableEq

/-- `sleep_time = self.period - (current_time - self.call_times[0])`;
the deque is nonempty whenever this is evaluated (the full branch with
`calls ≥ 1`), so the default head value is never reached there. -/
def sleepTime (period t1 : ℚ) (d1 : List ℚ) : ℚ :=
  period - (t1 - d1.headD 0)

/-- One admission of `MondayRateLimiter.__call__.wrapper`: evict at `t1`;
if at least `calls` timestamps remain, (sleep and) re-evict at `t2`;
append `t3`. -/
def admitStep (calls : ℕ) (period : ℚ) (s : LimiterState) (tm : AdmitTimes) :
    LimiterState :=
  let d1 := evictOld period tm.t1 s.call_times
  let d2 := if calls ≤ d1.length then evictOld period tm.t2 d1 else d1
  { call_times := d2 ++ [tm.t3]
    history := s.history ++ [tm.t3]
    lastTime := tm.t3 }

/-- Clock validity for one admission: readings strictly increase
(`lastTime < t1 < t2 < t3`), and in the full branch either the computed
`sleep_time` is nonpositive (`time.sleep` skipped) or `t2` is read only after
at least `sleep_time` seconds have elapsed past `t1`. -/
def validStep (calls : ℕ) (period : ℚ) (s : LimiterState) (tm : AdmitTimes) :
    Bool :=
  let d1 := evictOld period tm.t1 s.call_times
  decide (s.lastTime < tm.t1) && decide (tm.t1 < tm.t2) && decide (tm.t2 < tm.t3) &&
    (!(decide (calls ≤ d1.length)) ||
      (decide (tm.t1 + sleepTime period tm.t1 d1 ≤ tm.t2) ||
        decide (sleepTime period tm.t1 d1 ≤ 0)))

/-- Run a sequence of admissions. -/
def runLimiter (calls : ℕ) (period : ℚ) : LimiterState → List AdmitTimes → LimiterState
  | s, [] => s
  | s, tm :: rest => runLimiter calls period (admitStep calls period s tm) rest

/-- Clock validity for a whole admission sequence. -/
def validTrace (calls : ℕ) (period : ℚ) : LimiterState → List AdmitTimes → Bool
  | _, [] => true
  | s, tm :: rest =>
    validStep calls period s tm &&
      validTrace calls period (admitStep calls period s tm) rest

/-- A freshly constructed limiter: empty deque (`self.call_times = deque()`),
no calls recorded, construction observed at clock reading `t0`. -/
def initState (t0 : ℚ) : LimiterState :=
  { call_times := [], history := [], lastTime := t0 }

/-- Proof-side abbreviation for the deque right before the append in one
admission: first eviction at `t1`, then (in the full branch) the
post-sleep eviction at `t2`.  Definitionally equal to the deque computed
inside `admitStep`. -/
def evictBoth (calls : ℕ) (period t1 t2 : ℚ) (D : List ℚ) : List ℚ :=
  let d1 := evictOld period t1 D
  if calls ≤ d1.length then evictOld period t2 d1 else d1

/-- Invariant tying a limiter state to its recorded history: the deque is a
suffix of the history whose dropped prefix is stale (older than
`lastTime - period`); the deque holds at most `calls + 1` entries, and when it
overflows to `calls + 1` its front entry is already stale; and the recorded
history never has more than `calls` timestamps inside any closed window of
length `period`. -/
structure LimiterInv (calls : ℕ) (period : ℚ) (s : LimiterState) : Prop where
  decomp : ∃ pre, s.history = pre ++ s.call_times ∧
    ∀ x ∈ pre, x < s.lastTime - period
  size : s.call_times.length ≤ calls + 1
  oversize : s.call_times.length = calls + 1 →
    ∀ h, s.call_times.head? = some h → h < s.lastTime - period
  window : ∀ a : ℚ,
    s.history.countP (fun t => decide (a - period ≤ t ∧ t ≤ a)) ≤ calls

/-! ## Retry policy (src/monday_cli/utils/retry.py)

`create_retry_decorator(max_attempts, backoff_factor)` configures tenacity with
`stop_after_attempt(max_attempts)`, `wait_exponential(multiplier=backoff_factor,
min=DEFAULT_RETRY_MIN_WAIT, max=DEFAULT_RETRY_MAX_WAIT)`,
`retry_if_exception_type(...)` and `reraise=True`.  Tenacity itself is an
external dependency; its loop and wait computation are modelled from tenacity's
documented semantics: attempt numbers are 1-based, a failed attempt whose
exception matches the retry predicate is re-run until `stop_after_attempt`
trips, at which point (`reraise=True`) the last exception is re-raised
unchanged, and the sleep before attempt `n+1` is
`max(max(0, min), min(multiplier * 2^(n-1), max))`. -/

/-- Tenacity `wait_exponential(multiplier, min, max)` evaluated at 1-based
attempt number `attemptNumber`. -/
def waitExponential (multiplier minW maxW : ℚ) (attemptNumber : ℕ) : ℚ :=
  max (max 0 minW) (min (multiplier * 2 ^ (attemptNumber - 1)) maxW)

/-- Result of running the tenacity-wrapped operation: log events accumulated
over all attempts, the final result, and the 1-based number of the last
attempt actually invoked (= total invocation count). -/
structure RetryOutcome (L E α : Type) where
  logs : List L
  result : Except E α
  attempts : ℕ

/-- Tenacity retry loop: invoke attempt `k`; on success or a non-retryable
exception stop at once; on a retryable exception retry while attempts remain,
and with none remaining (`reraise=True`) surface the last exception unchanged.
`fuel` is the number of attempts still allowed, so `fuel = maxAttempts` at
`k = 1`. -/
def retryLoop {L E α : Type} (retryable : E → Bool)
    (op : ℕ → List L × Except E α) (k : ℕ) : ℕ → RetryOutcome L E α
  | 0 => { logs := (op k).1, result := (op k).2, attempts := k }
  | 1 => { logs := (op k).1, result := (op k).2, attempts := k }
  | fuel + 2 =>
    match op k with
    | (lg, .ok v) => { logs := lg, result := .ok v, attempts := k }
    | (lg, .error e) =>
      if retryable e then
        let rest := retryLoop retryable op (k + 1) (fuel + 1)
        { logs := lg ++ rest.logs, result := rest.result, attempts := rest.attempts }
      else { logs := lg, result := .error e, attempts := k }

/-- `execute_with_retry`: run the operation under the retry decorator built by
`create_retry_decorator(max_attempts, ...)`. -/
def executeWithRetry {L E α : Type} (maxAttempts : ℕ) (retryable : E → Bool)
    (op : ℕ → List L × Except E α) : RetryOutcome L E α :=
  retryLoop retryable op 1 maxAttempts

/-! ## HTTP layer model (src/monday_cli/client/graphql_client.py) -/

/-- One HTTP response as observed by `_make_request`: status code, the
`Retry-After` header if present, the JSON body (`none` models a body on which
`response.json()` raises `json.JSONDecodeError`), and the opaque texts
`str(e)` of the `HTTPStatusError` / `JSONDecodeError` exceptions. -/
structure HttpResponse where
  status : ℕ
  retryAfterHeader : Option String
  body : Option JsonVal
  statusErrText : String
  decodeErrText : String

/-- Outcome of `self.client.post(...)`: either a transport-level failure
(`httpx.TimeoutException` / `httpx.NetworkError` / `httpx.ConnectError`,
carrying `str(e)`) or an HTTP response. -/
inductive HttpOutcome where
  | transport (errText : String)
  | http (r : HttpResponse)

/-- Log events `_make_request` emits from the complexity sub-object of `data`:
the `logger.info` line with `before`/`after`, and the `logger.warning` line
emitted when `after < COMPLEXITY_WARNING_THRESHOLD`. -/
inductive LogEvent where
  | complexityInfo (before after : JsonVal)
  | complexityWarning (after : JsonVal) (resetIn : JsonVal)

/-- Lines 124-134 of graphql_client.py: if `data` is a dict with a truthy
`complexity` entry, log info with `before`/`after` (default 0), and when
`after` is below the threshold also log a warning with
`reset_in_x_seconds` (default the string "unknown").  A non-numeric `after`
would raise TypeError at the Python comparison; the claims only exercise
numeric values and the model emits no warning there. -/
def complexityLogs (response_data : JsonVal) : List LogEvent :=
  match jsonGet response_data "data" with
  | some (JsonVal.obj fs) =>
    match lookupField fs "complexity" with
    | some c =>
      if pyTruthy c then
        let before := (jsonGet c "before").getD (JsonVal.num 0)
        let after := (jsonGet c "after").getD (JsonVal.num 0)
        let warn :=
          match after with
          | JsonVal.num a =>
            if a < COMPLEXITY_WARNING_THRESHOLD then
              [LogEvent.complexityWarning after
                ((jsonGet c "reset_in_x_seconds").getD (JsonVal.str "unknown"))]
            else []
          | _ => []
        LogEvent.complexityInfo before after :: warn
      else []
    | none => []
  | _ => []

/-- `err.get("message", str(err))` with the string payload extracted; a
present non-string message would make the later `.lower()` raise in Python,
and is rendered through `pyStr` here (no claim exercises it). -/
def getMessage (err : JsonVal) : String :=
  match jsonGet err "message" with
  | some (JsonVal.str s) => s
  | some v => pyStr v
  | none => pyStr err

/-- Lines 138-146 of graphql_client.py: build the message list, join with
"; ", raise ComplexityError when any lowered message contains "complexity",
else MondayAPIError carrying the raw response payload. -/
def classifyGraphQLErrors (response_data : JsonVal) (errors : List JsonVal) :
    ClassifiedError :=
  let error_messages := errors.map getMessage
  let error_msg := String.intercalate "; " error_messages
  if error_messages.any (fun m => hasSubstr (strLower m) "complexity") then
    ClassifiedError.complexity ("Query complexity too high: " ++ error_msg)
  else
    ClassifiedError.apiError ("GraphQL errors: " ++ error_msg) (some response_data)

/-- Lines 95-97 of graphql_client.py: `payload = {"query": query}` and, when
`variables` is truthy (a non-None, nonempty dict), `payload["variables"] =
variables`. -/
def buildPayload (query : String) (vars : Option (List (String × JsonVal))) :
    List (String × JsonVal) :=
  [("query", JsonVal.str query)] ++
    (match vars with
     | some vs => if pyTruthy (JsonVal.obj vs) then [("variables", JsonVal.obj vs)] else []
     | none => [])

/-- `MondayGraphQLClient._make_request` for one attempt, given the transport
outcome of the POST.  Returns the log events emitted during the attempt and
either the parsed `response_data` dict or the raised error.  Faithful order:
a transport exception classifies as NetworkError; `raise_for_status` failures
classify 401 / 429 (header parsed with `int`, absent header defaulting to 60) /
other non-2xx; then JSON decoding; then complexity logging; then the
GraphQL-errors check. -/
def makeRequest (query : String) (vars : Option (List (String × JsonVal)))
    (outcome : HttpOutcome) : List LogEvent × Except RequestError JsonVal :=
  let _payload := buildPayload query vars
  match outcome with
  | .transport errText =>
    ([], .error (.classified (.network ("Network error: " ++ errText))))
  | .http r =>
    if 200 ≤ r.status ∧ r.status < 300 then
      match r.body with
      | none =>
        ([], .error (.classified
          (.apiError ("Invalid JSON response: " ++ r.decodeErrText) none)))
      | some response_data =>
        let logs := complexityLogs response_data
        match jsonGet response_data "errors" with
        | some errsVal =>
          if pyTruthy errsVal then
            match errsVal with
            | JsonVal.arr errors =>
              (logs, .error (.classified (classifyGraphQLErrors response_data errors)))
            | _ => (logs, .error (.pyTypeError "errors value is not a list"))
          else (logs, .ok response_data)
        | none => (logs, .ok response_data)
    else if r.status = 401 then
      ([], .error (.classified (.authentication "Invalid API token")))
    else if r.status = 429 then
      match r.retryAfterHeader with
      | none => ([], .error (.classified (.rateLimited (some 60))))
      | some s =>
        match pyInt s with
        | some n => ([], .error (.classified (.rateLimited (some n))))
        | none => ([], .error (.pyValueError s))
    else
      ([], .error (.classified
        (.apiError ("HTTP " ++ toString r.status ++ ": " ++ r.statusErrText) none)))

/-! ## Request pipeline composition -/

/-- Result of one logical request through
`self.rate_limiter(self.retry_decorator(self._make_request))`: the limiter
state after the request, the logs, the final result and the number of
`_make_request` invocations. -/
structure RequestTrace where
  limiter : LimiterState
  logs : List LogEvent
  result : Except RequestError JsonVal
  invocations : ℕ

/-- `MondayGraphQLClient._rate_limited_request` applied to one logical request:
the rate limiter's wrapper performs its admission once (appending one
timestamp) and then invokes the retry-wrapped `_make_request`, whose attempts
`i = 1, 2, ...` observe transport outcome `scenario i`. -/
def rateLimitedRequest (calls : ℕ) (period : ℚ) (st : LimiterState)
    (tm : AdmitTimes) (maxAttempts : ℕ) (query : String)
    (vars : Option (List (String × JsonVal))) (scenario : ℕ → HttpOutcome) :
    RequestTrace :=
  let st1 := admitStep calls period st tm
  let r := executeWithRetry maxAttempts reqRetryable
    (fun i => makeRequest query vars (scenario i))
  { limiter := st1, logs := r.logs, result := r.result, invocations := r.attempts }

/-- `response.get("data", {})`: the `data` entry, an empty dict if absent.
(Python would raise on a non-dict response value; the successful path always
yields the parsed dict.) -/
def getData (response : JsonVal) : JsonVal :=
  (jsonGet response "data").getD (JsonVal.obj [])

/-- `MondayGraphQLClient.execute_query`: run the rate-limited, retried request
and return `response.get("data", {})` on success. -/
def executeQuery (calls : ℕ) (period : ℚ) (st : LimiterState) (tm : AdmitTimes)
    (maxAttempts : ℕ) (query : String)
    (vars : Option (List (String × JsonVal))) (scenario : ℕ → HttpOutcome) :
    RequestTrace :=
  let tr := rateLimitedRequest calls period st tm maxAttempts query vars scenario
  { tr with result := tr.result.map getData }

/-- `MondayGraphQLClient.execute_mutation`: textually identical body to
`execute_query` (the source duplicates it with `mutation` in place of
`query`). -/
def executeMutation (calls : ℕ) (period : ℚ) (st : LimiterState) (tm : AdmitTimes)
    (maxAttempts : ℕ) (mutation : String)
    (vars : Option (List (String × JsonVal))) (scenario : ℕ → HttpOutcome) :
    RequestTrace :=
  let tr := rateLimitedRequest calls period st tm maxAttempts mutation vars scenario
  { tr with result := tr.result.map getData }

/-- Fixed response used by the C8 analysis: a 2xx body carrying both a
complexity sub-object under `data` and a non-empty `errors` array. -/
def dualResponse : JsonVal :=
  JsonVal.obj
    [("data", JsonVal.obj
        [("complexity", JsonVal.obj
            [("before", JsonVal.num 500000), ("after", JsonVal.num 400000),
             ("reset_in_x_seconds", JsonVal.num 30)])]),
     ("errors", JsonVal.arr [JsonVal.obj [("message", JsonVal.str "some failure")]])]

/-! ## Helper lemmas -/

theorem evictOld_decomp (period now : ℚ) (l : List ℚ) :
    ∃ pre, l = pre ++ evictOld period now l ∧ ∀ x ∈ pre, x < now - period := by
  induction l with
  | nil => exact ⟨[], rfl, by simp⟩
  | cons h t ih =>
    by_cases hc : h < now - period
    · obtain ⟨pre, he, hp⟩ := ih
      refine ⟨h :: pre, ?_, ?_⟩
      · have hev : evictOld period now (h :: t) = evictOld period now t := by
          simp [evictOld, hc]
        rw [hev, List.cons_append, ← he]
      · intro x hx
        rcases List.mem_cons.mp hx with rfl | hx
        · exact hc
        · exact hp x hx
    · exact ⟨[], by simp [evictOld, hc], by simp⟩

theorem evictOld_head_not_lt (period now : ℚ) (l : List ℚ) (h : ℚ)
    (hh : (evictOld period now l).head? = some h) : ¬ h < now - period := by
  induction l with
  | nil => simp [evictOld] at hh
  | cons a t ih =>
    by_cases hc : a < now - period
    · have hev : evictOld period now (a :: t) = evictOld period now t := by
        simp [evictOld, hc]
      rw [hev] at hh
      exact ih hh
    · have hev : evictOld period now (a :: t) = a :: t := by
        simp [evictOld, hc]
      rw [hev] at hh
      simp only [List.head?_cons, Option.some.injEq] at hh
      subst hh
      exact hc

theorem evictOld_length_le (period now : ℚ) (l : List ℚ) :
    (evictOld period now l).length ≤ l.length := by
  obtain ⟨pre, he, -⟩ := evictOld_decomp period now l
  conv_rhs => rw [he]
  simp [List.length_append]

theorem evictOld_eq_of_length (period now : ℚ) (l : List ℚ)
    (h : (evictOld period now l).length = l.length) : evictOld period now l = l := by
  obtain ⟨pre, he, -⟩ := evictOld_decomp period now l
  have hlen : pre.length = 0 := by
    have hl := congrArg List.length he
    simp only [List.length_append] at hl
    omega
  have hpre : pre = [] := List.eq_nil_of_length_eq_zero hlen
  rw [hpre] at he
  simpa using he.symm

theorem evictBoth_facts (calls : ℕ) (period : ℚ) (D : List ℚ) (t1 t2 : ℚ)
    (hc : 0 < calls)
    (hsize : D.length ≤ calls + 1)
    (hover : D.length = calls + 1 → ∀ h, D.head? = some h → h < t1 - period)
    (hsleep : calls ≤ (evictOld period t1 D).length →
      (t1 + sleepTime period t1 (evictOld period t1 D) ≤ t2 ∨
       sleepTime period t1 (evictOld period t1 D) ≤ 0))
    (h12 : t1 < t2) :
    (∃ pre, D = pre ++ evictBoth calls period t1 t2 D ∧
        ∀ x ∈ pre, x < t2 - period) ∧
    (evictBoth calls period t1 t2 D).length ≤ calls ∧
    ((evictBoth calls period t1 t2 D).length = calls →
      ∃ h2 tl, evictBoth calls period t1 t2 D = h2 :: tl ∧ h2 ≤ t2 - period) := by
  have hd1le : (evictOld period t1 D).length ≤ calls := by
    rcases Nat.lt_or_ge D.length (calls + 1) with hlt | hge
    · have := evictOld_length_le period t1 D
      omega
    · have hDlen : D.length = calls + 1 := le_antisymm hsize hge
      obtain ⟨a, hh0⟩ : ∃ a, D.head? = some a := by
        cases D with
        | nil => simp at hDlen
        | cons a t => exact ⟨a, rfl⟩
      have ha : a < t1 - period := hover hDlen a hh0
      by_contra hgt
      push_neg at hgt
      have hle := evictOld_length_le period t1 D
      have hlen : (evictOld period t1 D).length = D.length := by omega
      have heq := evictOld_eq_of_length period t1 D hlen
      have hnot := evictOld_head_not_lt period t1 D a (by rw [heq]; exact hh0)
      exact hnot ha
  by_cases hfb : calls ≤ (evictOld period t1 D).length
  · have hEB : evictBoth calls period t1 t2 D
        = evictOld period t2 (evictOld period t1 D) := by
      simp [evictBoth, hfb]
    have hd1 : (evictOld period t1 D).length = calls := le_antisymm hd1le hfb
    obtain ⟨preA, hA, hpreA⟩ := evictOld_decomp period t1 D
    obtain ⟨preC, hC, hpreC⟩ := evictOld_decomp period t2 (evictOld period t1 D)
    refine ⟨⟨preA ++ preC, ?_, ?_⟩, ?_, ?_⟩
    · rw [hEB, List.append_assoc, ← hC]
      exact hA
    · intro x hx
      rcases List.mem_append.mp hx with hxA | hxC
      · have := hpreA x hxA
        linarith
      · exact hpreC x hxC
    · rw [hEB]
      have := evictOld_length_le period t2 (evictOld period t1 D)
      omega
    · intro hlen
      rw [hEB] at hlen
      have hlen2 : (evictOld period t2 (evictOld period t1 D)).length
          = (evictOld period t1 D).length := by omega
      have heq2 : evictOld period t2 (evictOld period t1 D) = evictOld period t1 D :=
        evictOld_eq_of_length period t2 _ hlen2
      cases hD1 : evictOld period t1 D with
      | nil =>
        rw [hD1] at hd1
        simp at hd1
        omega
      | cons h2 tl =>
        refine ⟨h2, tl, ?_, ?_⟩
        · rw [hEB, heq2, hD1]
        · have hhead : (evictOld period t1 D).headD 0 = h2 := by rw [hD1]; rfl
          have hs := hsleep hfb
          rw [sleepTime, hhead] at hs
          rcases hs with hs | hs
          · linarith
          · linarith
  · have hEB : evictBoth calls period t1 t2 D = evictOld period t1 D := by
      simp [evictBoth, hfb]
    push_neg at hfb
    obtain ⟨preA, hA, hpreA⟩ := evictOld_decomp period t1 D
    refine ⟨⟨preA, ?_, ?_⟩, ?_, ?_⟩
    · rw [hEB]
      exact hA
    · intro x hx
      have := hpreA x hx
      linarith
    · rw [hEB]
      omega
    · intro hlen
      rw [hEB] at hlen
      omega

theorem limiterInv_init (calls : ℕ) (period : ℚ) (t0 : ℚ) :
    LimiterInv calls period (initState t0) := by
  refine ⟨⟨[], rfl, by simp⟩, by simp [initState], ?_, by simp [initState]⟩
  intro h
  simp [initState] at h

theorem limiterInv_step (calls : ℕ) (period : ℚ) (s : LimiterState) (tm : AdmitTimes)
    (hc : 0 < calls) (hinv : LimiterInv calls period s)
    (hv : validStep calls period s tm = true) :
    LimiterInv calls period (admitStep calls period s tm) := by
  simp only [validStep, Bool.and_eq_true, Bool.or_eq_true, Bool.not_eq_true',
    decide_eq_true_eq, decide_eq_false_iff_not] at hv
  obtain ⟨⟨⟨hL, h12⟩, h23⟩, hslp⟩ := hv
  have hsleep : calls ≤ (evictOld period tm.t1 s.call_times).length →
      (tm.t1 + sleepTime period tm.t1 (evictOld period tm.t1 s.call_times) ≤ tm.t2 ∨
       sleepTime period tm.t1 (evictOld period tm.t1 s.call_times) ≤ 0) := by
    intro hfb
    rcases hslp with h | h
    · exact absurd hfb h
    · exact h
  have hover : s.call_times.length = calls + 1 →
      ∀ h, s.call_times.head? = some h → h < tm.t1 - period := by
    intro hlen h hh
    have := hinv.oversize hlen h hh
    linarith
  obtain ⟨⟨preB, hDeq, hpreB⟩, hK2, hK3⟩ :=
    evictBoth_facts calls period s.call_times tm.t1 tm.t2 hc hinv.size hover hsleep h12
  obtain ⟨pre0, hH, hpre0⟩ := hinv.decomp
  refine ⟨⟨pre0 ++ preB, ?_, ?_⟩, ?_, ?_, ?_⟩
  · show s.history ++ [tm.t3]
      = (pre0 ++ preB) ++ (evictBoth calls period tm.t1 tm.t2 s.call_times ++ [tm.t3])
    conv_lhs => rw [hH, hDeq]
    simp [List.append_assoc]
  · intro x hx
    show x < tm.t3 - period
    rcases List.mem_append.mp hx with h | h
    · have := hpre0 x h
      linarith
    · have := hpreB x h
      linarith
  · show (evictBoth calls period tm.t1 tm.t2 s.call_times ++ [tm.t3]).length ≤ calls + 1
    simp only [List.length_append, List.length_cons, List.length_nil]
    omega
  · intro hlen h hh
    show h < tm.t3 - period
    have hEBlen : (evictBoth calls period tm.t1 tm.t2 s.call_times).length = calls := by
      have : (evictBoth calls period tm.t1 tm.t2 s.call_times ++ [tm.t3]).length
          = calls + 1 := hlen
      simp only [List.length_append, List.length_cons, List.length_nil] at this
      omega
    obtain ⟨h2, tl, hEB2, hh2⟩ := hK3 hEBlen
    have hh' : ((h2 :: tl) ++ [tm.t3]).head? = some h := by
      rw [← hEB2]
      exact hh
    simp only [List.cons_append, List.head?_cons, Option.some.injEq] at hh'
    subst hh'
    linarith
  · intro a
    show (s.history ++ [tm.t3]).countP (fun t => decide (a - period ≤ t ∧ t ≤ a)) ≤ calls
    rw [List.countP_append]
    by_cases hp3 : a - period ≤ tm.t3 ∧ tm.t3 ≤ a
    · have h1 : List.countP (fun t => decide (a - period ≤ t ∧ t ≤ a)) [tm.t3] = 1 := by
        rw [List.countP_cons, List.countP_nil]
        simp only [decide_eq_true_eq]
        rw [if_pos hp3]
      rw [h1]
      have hmono : List.countP (fun t => decide (a - period ≤ t ∧ t ≤ a)) s.history
          ≤ List.countP (fun t => decide (tm.t3 - period ≤ t)) s.history := by
        apply List.countP_mono_left
        intro x hx hpx
        simp only [decide_eq_true_eq] at hpx ⊢
        have hta : tm.t3 ≤ a := hp3.2
        linarith [hpx.1]
      have hHeq : s.history
          = (pre0 ++ preB) ++ evictBoth calls period tm.t1 tm.t2 s.call_times := by
        conv_lhs => rw [hH, hDeq]
        simp [List.append_assoc]
      have h0 : List.countP (fun t => decide (tm.t3 - period ≤ t)) (pre0 ++ preB) = 0 := by
        rw [List.countP_eq_zero]
        intro x hx
        simp only [decide_eq_true_eq, not_le]
        rcases List.mem_append.mp hx with h | h
        · have := hpre0 x h
          linarith
        · have := hpreB x h
          linarith
      have hEBcount : List.countP (fun t => decide (tm.t3 - period ≤ t))
          (evictBoth calls period tm.t1 tm.t2 s.call_times) < calls := by
        rcases lt_or_eq_of_le hK2 with hlt | heq
        · exact lt_of_le_of_lt (List.countP_le_length _) hlt
        · obtain ⟨h2, tl, hEB2, hh2⟩ := hK3 heq
          rw [hEB2, List.countP_cons]
          have hq2 : (decide (tm.t3 - period ≤ h2)) = false := by
            simp only [decide_eq_false_iff_not, not_le]
            linarith
          rw [hq2]
          have htl1 : List.countP (fun t => decide (tm.t3 - period ≤ t)) tl
              ≤ tl.length := List.countP_le_length _
          have htl2 : tl.length + 1 = calls := by
            have := congrArg List.length hEB2
            simp only [List.length_cons] at this
            omega
          simp only [Bool.false_eq_true, if_false]
          omega
      have hfin : List.countP (fun t => decide (a - period ≤ t ∧ t ≤ a)) s.history
          < calls := by
        calc List.countP (fun t => decide (a - period ≤ t ∧ t ≤ a)) s.history
            ≤ List.countP (fun t => decide (tm.t3 - period ≤ t)) s.history := hmono
          _ = List.countP (fun t => decide (tm.t3 - period ≤ t)) (pre0 ++ preB)
              + List.countP (fun t => decide (tm.t3 - period ≤ t))
                  (evictBoth calls period tm.t1 tm.t2 s.call_times) := by
                rw [hHeq, List.countP_append]
          _ = List.countP (fun t => decide (tm.t3 - period ≤ t))
                  (evictBoth calls period tm.t1 tm.t2 s.call_times) := by
                rw [h0, Nat.zero_add]
          _ < calls := hEBcount
      omega
    · have h1 : List.countP (fun t => decide (a - period ≤ t ∧ t ≤ a)) [tm.t3] = 0 := by
        rw [List.countP_cons, List.countP_nil]
        simp only [decide_eq_true_eq]
        rw [if_neg hp3]
      rw [h1]
      have := hinv.window a
      omega

theorem limiterInv_run (calls : ℕ) (period : ℚ) (hc : 0 < calls) :
    ∀ (tms : List AdmitTimes) (s : LimiterState), LimiterInv calls period s →
      validTrace calls period s tms = true →
      LimiterInv calls period (runLimiter calls period s tms) := by
  intro tms
  induction tms with
  | nil =>
    intro s hinv _
    simpa [runLimiter] using hinv
  | cons tm rest ih =>
    intro s hinv hv
    simp only [validTrace, Bool.and_eq_true] at hv
    exact ih (admitStep calls period s tm)
      (limiterInv_step calls period s tm hc hinv hv.1) hv.2

theorem retryLoop_first_success {L E α : Type} (retryable : E → Bool)
    (op : ℕ → List L × Except E α) (k : ℕ) (lg : List L) (v : α)
    (h : op k = (lg, Except.ok v)) :
    ∀ fuel, 1 ≤ fuel →
      retryLoop retryable op k fuel = ⟨lg, Except.ok v, k⟩ := by
  intro fuel hfuel
  match fuel, hfuel with
  | 1, _ => simp [retryLoop, h]
  | (n + 2), _ => simp [retryLoop, h]

theorem retryLoop_first_nonretryable {L E α : Type} (retryable : E → Bool)
    (op : ℕ → List L × Except E α) (k : ℕ) (lg : List L) (e : E)
    (h : op k = (lg, Except.error e)) (he : retryable e = false) :
    ∀ fuel, 1 ≤ fuel →
      retryLoop retryable op k fuel = ⟨lg, Except.error e, k⟩ := by
  intro fuel hfuel
  match fuel, hfuel with
  | 1, _ => simp [retryLoop, h]
  | (n + 2), _ => simp [retryLoop, h, he]

theorem retryLoop_step_retryable {L E α : Type} (retryable : E → Bool)
    (op : ℕ → List L × Except E α) (k fuel : ℕ) (lg : List L) (e : E)
    (h : op k = (lg, Except.error e)) (he : retryable e = true) :
    retryLoop retryable op k (fuel + 2) =
      { logs := lg ++ (retryLoop retryable op (k + 1) (fuel + 1)).logs
        result := (retryLoop retryable op (k + 1) (fuel + 1)).result
        attempts := (retryLoop retryable op (k + 1) (fuel + 1)).attempts } := by
  simp [retryLoop, h, he]

/-! ## Claim theorems -/

/-- C1 (counterexample): a logical request whose three attempts all fail with
a transport-level network error invokes `_make_request` three times while the
rate limiter records exactly one admission (one appended timestamp), so
rate-limiter admission is not performed on every attempt. -/
theorem retry_attempts_not_individually_rate_limited :
    (rateLimitedRequest 60 60 (initState 0) ⟨1, 2, 3⟩ 3 "query" none
        (fun _ => HttpOutcome.transport "timed out")).invocations = 3 ∧
    (rateLimitedRequest 60 60 (initState 0) ⟨1, 2, 3⟩ 3 "query" none
        (fun _ => HttpOutcome.transport "timed out")).limiter.history.length = 1 ∧
    (3 : ℕ) ≠ 1 := by
  refine ⟨rfl, rfl, by decide⟩

/-- C1 (amended): rate-limiter admission is performed exactly once per logical
request, before the first attempt — the retry loop runs inside the limiter's
wrapper, so retried attempts are not individually rate-limited and each
logical request appends exactly one timestamp to the limiter's record. -/
theorem admission_once_per_logical_request :
    ∀ (calls : ℕ) (period : ℚ) (st : LimiterState) (tm : AdmitTimes)
      (maxAttempts : ℕ) (q : String) (vars : Option (List (String × JsonVal)))
      (scenario : ℕ → HttpOutcome),
      (rateLimitedRequest calls period st tm maxAttempts q vars
          scenario).limiter.history.length = st.history.length + 1 := by
  intro calls period st tm maxAttempts q vars scenario
  simp [rateLimitedRequest, admitStep]

/-- C2: for every admission sequence through a limiter configured with
`(calls=N, period=P)` under a valid real-time clock (strictly increasing
readings, sleeps of at least the computed duration), every closed window of
length `period` contains at most `calls` recorded call timestamps; the
admission step (`admitStep`) evicts timestamps older than `now - period`,
sleeps `period - (now - oldest)` when full, re-evicts, and appends. -/
theorem rate_limiter_sliding_window_bound :
    ∀ (calls : ℕ) (period : ℚ) (t0 : ℚ) (tms : List AdmitTimes) (a : ℚ),
      0 < calls → 0 < period →
      validTrace calls period (initState t0) tms = true →
      ((runLimiter calls period (initState t0) tms).history.countP
          (fun t => decide (a - period ≤ t ∧ t ≤ a))) ≤ calls := by
  intro calls period t0 tms a hc hp hv
  exact (limiterInv_run calls period hc tms (initState t0)
    (limiterInv_init calls period t0) hv).window a

/-- C2 witness: a concrete two-admission trace for `(calls=1, period=10)`
stays within the window bound. -/
theorem rate_limiter_sliding_window_bound_witness :
    ((runLimiter 1 10 (initState 0)
        [⟨20, 21, 22⟩, ⟨40, 41, 42⟩]).history.countP
        (fun t => decide ((42 : ℚ) - 10 ≤ t ∧ t ≤ 42))) ≤ 1 :=
  rate_limiter_sliding_window_bound 1 10 0 [⟨20, 21, 22⟩, ⟨40, 41, 42⟩] 42
    (by norm_num) (by norm_num)
    (by norm_num [validTrace, validStep, admitStep, evictOld, sleepTime, initState])

/-- C3: the tenacity backoff delay for 1-based attempt `i` equals
`clamp(backoff_factor * 2^(i-1), min_wait, max_wait)`; the delay sequence is
non-decreasing and bounded in `[min_wait, max_wait]`, and with the default
configuration `backoff_factor=2, min_wait=1, max_wait=60` the successive
delays are 2, 4, 8, 16, 32, 60, 60, 60. -/
theorem backoff_delay_clamp_monotone_bounded :
    (∀ (m minW maxW : ℚ) (i : ℕ), 0 ≤ minW → 1 ≤ i →
      waitExponential m minW maxW i = max minW (min (m * 2 ^ (i - 1)) maxW)) ∧
    (∀ (m minW maxW : ℚ) (i : ℕ), 0 ≤ m → 1 ≤ i →
      waitExponential m minW maxW i ≤ waitExponential m minW maxW (i + 1)) ∧
    (∀ (m minW maxW : ℚ) (i : ℕ), 0 ≤ minW → minW ≤ maxW →
      minW ≤ waitExponential m minW maxW i ∧ waitExponential m minW maxW i ≤ maxW) ∧
    ((List.range 8).map (fun k =>
        waitExponential DEFAULT_RETRY_BACKOFF_FACTOR DEFAULT_RETRY_MIN_WAIT
          DEFAULT_RETRY_MAX_WAIT (k + 1))
      = [2, 4, 8, 16, 32, 60, 60, 60]) := by
  refine ⟨?_, ?_, ?_, ?_⟩
  · intro m minW maxW i hmin _
    rw [waitExponential, max_eq_right hmin]
  · intro m minW maxW i hm hi
    apply max_le_max le_rfl
    apply min_le_min _ le_rfl
    apply mul_le_mul_of_nonneg_left _ hm
    apply pow_le_pow_right₀ (by norm_num)
    omega
  · intro m minW maxW i hmin hlemax
    constructor
    · exact le_trans (le_max_right 0 minW) (le_max_left _ _)
    · exact max_le (max_le (le_trans hmin hlemax) hlemax) (min_le_right _ _)
  · norm_num [List.range_succ, waitExponential, max_def, min_def,
      DEFAULT_RETRY_BACKOFF_FACTOR, DEFAULT_RETRY_MIN_WAIT, DEFAULT_RETRY_MAX_WAIT]

/-- C3 witness: the general clamp formula, monotonicity and bounds evaluated
at the default configuration. -/
theorem backoff_delay_clamp_monotone_bounded_witness :
    waitExponential 2 1 60 6 = max 1 (min (2 * 2 ^ 5) 60) ∧
    waitExponential 2 1 60 3 ≤ waitExponential 2 1 60 4 ∧
    1 ≤ waitExponential 2 1 60 7 ∧ waitExponential 2 1 60 7 ≤ 60 :=
  ⟨backoff_delay_clamp_monotone_bounded.1 2 1 60 6 (by norm_num) (by norm_num),
   backoff_delay_clamp_monotone_bounded.2.1 2 1 60 3 (by norm_num) (by norm_num),
   (backoff_delay_clamp_monotone_bounded.2.2.1 2 1 60 7 (by norm_num) (by norm_num)).1,
   (backoff_delay_clamp_monotone_bounded.2.2.1 2 1 60 7 (by norm_num) (by norm_num)).2⟩

/-- C9: `execute_query` and `execute_mutation` are extensionally equal — for
every request text, variables and transport scenario they perform the
identical rate-limited, retried request and produce identical traces. -/
theorem execute_query_eq_execute_mutation :
    ∀ (calls : ℕ) (period : ℚ) (st : LimiterState) (tm : AdmitTimes)
      (maxAttempts : ℕ) (text : String) (vars : Option (List (String × JsonVal)))
      (scenario : ℕ → HttpOutcome),
      executeQuery calls period st tm maxAttempts text vars scenario =
        executeMutation calls period st tm maxAttempts text vars scenario :=
  fun _ _ _ _ _ _ _ _ => rfl

/-- C10: the JSON request body contains only the `query` key when `variables`
is `None` or an empty mapping, and contains a `variables` key exactly when
`variables` is a non-empty mapping. -/
theorem payload_variables_key_iff_nonempty :
    ∀ (q : String) (vars : Option (List (String × JsonVal))),
      ((vars = none ∨ vars = some []) →
        buildPayload q vars = [("query", JsonVal.str q)]) ∧
      (lookupField (buildPayload q vars) "variables" = none ↔
        (vars = none ∨ vars = some [])) := by
  intro q vars
  constructor
  · rintro (rfl | rfl) <;> simp [buildPayload, pyTruthy]
  · cases vars with
    | none => simp [buildPayload, lookupField]
    | some l =>
      cases l with
      | nil => simp [buildPayload, pyTruthy, lookupField]
      | cons a as => simp [buildPayload, pyTruthy, lookupField]

/-- C10 witness: with `variables=None` the payload is exactly the singleton
`query` object. -/
theorem payload_variables_key_iff_nonempty_witness :
    buildPayload "query Boards" none = [("query", JsonVal.str "query Boards")] :=
  (payload_variables_key_iff_nonempty "query Boards" none).1 (Or.inl rfl)

/-- C4: the retry wrapper retries only classified Network and RateLimited
errors; any other classified kind stops after exactly one invocation with the
error surfaced unchanged; and an operation failing with Network on every
attempt under `max_attempts=3` is invoked exactly 3 times, after which the
last Network error is re-raised unchanged. -/
theorem retry_eligibility_and_exhaustion :
    (∀ e : ClassifiedError, isRetryable e = true ↔
        ((∃ m, e = ClassifiedError.network m) ∨
         (∃ ra, e = ClassifiedError.rateLimited ra))) ∧
    (∀ (α : Type) (op : ℕ → List LogEvent × Except RequestError α)
        (maxAttempts : ℕ) (lg : List LogEvent) (e : RequestError),
        1 ≤ maxAttempts → op 1 = (lg, Except.error e) → reqRetryable e = false →
        (executeWithRetry maxAttempts reqRetryable op).result = Except.error e ∧
        (executeWithRetry maxAttempts reqRetryable op).attempts = 1) ∧
    (∀ (op : ℕ → List LogEvent × Except RequestError JsonVal) (msg : ℕ → String),
        (∀ i, op i = ([], Except.error (RequestError.classified
            (ClassifiedError.network (msg i))))) →
        (executeWithRetry 3 reqRetryable op).result
            = Except.error (RequestError.classified (ClassifiedError.network (msg 3))) ∧
        (executeWithRetry 3 reqRetryable op).attempts = 3) := by
  refine ⟨?_, ?_, ?_⟩
  · intro e
    cases e <;> simp [isRetryable]
  · intro α op maxAttempts lg e hmax hop hnr
    have h := retryLoop_first_nonretryable reqRetryable op 1 lg e hop hnr maxAttempts hmax
    constructor <;> simp [executeWithRetry, h]
  · intro op msg hop
    have h3 : retryLoop reqRetryable op 3 1 = ⟨(op 3).1, (op 3).2, 3⟩ := rfl
    have h2 : retryLoop reqRetryable op 2 2
        = ⟨[] ++ (retryLoop reqRetryable op 3 1).logs,
           (retryLoop reqRetryable op 3 1).result,
           (retryLoop reqRetryable op 3 1).attempts⟩ :=
      retryLoop_step_retryable reqRetryable op 2 0 [] _ (hop 2) rfl
    have h1 : retryLoop reqRetryable op 1 3
        = ⟨[] ++ (retryLoop reqRetryable op 2 2).logs,
           (retryLoop reqRetryable op 2 2).result,
           (retryLoop reqRetryable op 2 2).attempts⟩ :=
      retryLoop_step_retryable reqRetryable op 1 1 [] _ (hop 1) rfl
    constructor
    · show (retryLoop reqRetryable op 1 3).result = _
      rw [h1, h2]
      simp [h3, hop 3]
    · show (retryLoop reqRetryable op 1 3).attempts = 3
      rw [h1, h2]
      simp [h3]

/-- C4 witness: three consecutive network failures under `max_attempts=3`
give exactly three invocations. -/
theorem retry_eligibility_and_exhaustion_witness :
    (executeWithRetry 3 reqRetryable
        (fun i => (([] : List LogEvent), (Except.error (RequestError.classified
          (ClassifiedError.network ("boom " ++ toString i)))
            : Except RequestError JsonVal)))).attempts = 3 :=
  (retry_eligibility_and_exhaustion.2.2
      (fun i => ([], Except.error (RequestError.classified
        (ClassifiedError.network ("boom " ++ toString i)))))
      (fun i => "boom " ++ toString i) (fun _ => rfl)).2

/-- C5 (counterexample): a 429 response whose Retry-After header is present
but unparseable does not classify as `RateLimited(60)` — the `int()` call
raises an uncaught ValueError. -/
theorem unparseable_retry_after_raises_value_error :
    (makeRequest "q" none (HttpOutcome.http
        { status := 429, retryAfterHeader := some "not-a-number", body := none,
          statusErrText := "429", decodeErrText := "" })).2
      = Except.error (RequestError.pyValueError "not-a-number") ∧
    RequestError.pyValueError "not-a-number"
      ≠ RequestError.classified (ClassifiedError.rateLimited (some 60)) := by
  refine ⟨by rfl, ?_⟩
  intro h
  cases h

/-- C5 (amended): a 429 response classifies as `RateLimited(retry_after)`
with `retry_after` parsed from the Retry-After header; an absent header
defaults to 60; a present but unparseable header raises ValueError instead of
defaulting.  Classification is a function of the response, hence
deterministic. -/
theorem classify_429_retry_after :
    ∀ (q : String) (vars : Option (List (String × JsonVal))) (r : HttpResponse),
      r.status = 429 →
      ((r.retryAfterHeader = none →
          (makeRequest q vars (HttpOutcome.http r)).2
            = Except.error (RequestError.classified
                (ClassifiedError.rateLimited (some 60)))) ∧
       (∀ s n, r.retryAfterHeader = some s → pyInt s = some n →
          (makeRequest q vars (HttpOutcome.http r)).2
            = Except.error (RequestError.classified
                (ClassifiedError.rateLimited (some n)))) ∧
       (∀ s, r.retryAfterHeader = some s → pyInt s = none →
          (makeRequest q vars (HttpOutcome.http r)).2
            = Except.error (RequestError.pyValueError s))) := by
  intro q vars r hst
  obtain ⟨st, hdr, body, setxt, detxt⟩ := r
  simp only at hst
  subst hst
  refine ⟨?_, ?_, ?_⟩
  · rintro rfl
    simp [makeRequest]
  · rintro s n rfl hpi
    simp [makeRequest, hpi]
  · rintro s rfl hpi
    simp [makeRequest, hpi]

/-- C5 witness: Retry-After 120 yields RateLimited(120). -/
theorem classify_429_retry_after_witness :
    (makeRequest "q" none (HttpOutcome.http
        { status := 429, retryAfterHeader := some "120", body := none,
          statusErrText := "", decodeErrText := "" })).2
      = Except.error (RequestError.classified
          (ClassifiedError.rateLimited (some 120))) :=
  (classify_429_retry_after "q" none
      { status := 429, retryAfterHeader := some "120", body := none,
        statusErrText := "", decodeErrText := "" } rfl).2.1 "120" 120 (by rfl) rfl

/-- C6 (counterexample): the MondayAPIError message is not the bare
concatenation of the error messages — it carries the prefix
"GraphQL errors: ". -/
theorem api_error_message_has_prefix :
    classifyGraphQLErrors (JsonVal.obj [])
        [JsonVal.obj [("message", JsonVal.str "boom")]]
      = ClassifiedError.apiError "GraphQL errors: boom" (some (JsonVal.obj [])) ∧
    "GraphQL errors: boom" ≠ "boom" := by
  refine ⟨by rfl, by decide⟩

/-- C6 (amended): for a 2xx JSON response with a non-empty errors array, the
request raises the classified error; a message containing "complexity"
case-insensitively yields Complexity (taking priority), otherwise
MondayAPIError whose message is "GraphQL errors: " followed by all error
messages joined by "; " and which carries the raw response payload. -/
theorem graphql_errors_classification :
    ∀ (q : String) (vars : Option (List (String × JsonVal))) (r : HttpResponse)
      (rd : JsonVal) (errors : List JsonVal),
      200 ≤ r.status → r.status < 300 → r.body = some rd →
      jsonGet rd "errors" = some (JsonVal.arr errors) → errors ≠ [] →
      (makeRequest q vars (HttpOutcome.http r)).2
          = Except.error (RequestError.classified (classifyGraphQLErrors rd errors)) ∧
      ((errors.map getMessage).any (fun m => hasSubstr (strLower m) "complexity") = true →
        classifyGraphQLErrors rd errors
          = ClassifiedError.complexity ("Query complexity too high: "
              ++ String.intercalate "; " (errors.map getMessage))) ∧
      ((errors.map getMessage).any (fun m => hasSubstr (strLower m) "complexity") = false →
        classifyGraphQLErrors rd errors
          = ClassifiedError.apiError ("GraphQL errors: "
              ++ String.intercalate "; " (errors.map getMessage)) (some rd)) := by
  intro q vars r rd errors h1 h2 hbody herr hne
  refine ⟨?_, ?_, ?_⟩
  · obtain ⟨st, hdr, body, setxt, detxt⟩ := r
    simp only at h1 h2 hbody
    subst hbody
    cases errors with
    | nil => exact absurd rfl hne
    | cons e es => simp [makeRequest, if_pos (And.intro h1 h2), herr, pyTruthy]
  · intro hany
    simp [classifyGraphQLErrors, hany]
  · intro hany
    simp [classifyGraphQLErrors, hany]

/-- C6 witness: the spec's complexity example classifies as Complexity, not
APIError. -/
theorem graphql_errors_classification_witness :
    classifyGraphQLErrors
        (JsonVal.obj [("errors", JsonVal.arr [JsonVal.obj [("message",
          JsonVal.str "Query has complexity score 12000000, maximum allowed is 5000000")]])])
        [JsonVal.obj [("message",
          JsonVal.str "Query has complexity score 12000000, maximum allowed is 5000000")]]
      = ClassifiedError.complexity
          "Query complexity too high: Query has complexity score 12000000, maximum allowed is 5000000" :=
  (graphql_errors_classification "q" none
      { status := 200, retryAfterHeader := none,
        body := some (JsonVal.obj [("errors", JsonVal.arr [JsonVal.obj [("message",
          JsonVal.str "Query has complexity score 12000000, maximum allowed is 5000000")]])]),
        statusErrText := "", decodeErrText := "" }
      (JsonVal.obj [("errors", JsonVal.arr [JsonVal.obj [("message",
        JsonVal.str "Query has complexity score 12000000, maximum allowed is 5000000")]])])
      [JsonVal.obj [("message",
        JsonVal.str "Query has complexity score 12000000, maximum allowed is 5000000")]]
      (by norm_num) (by norm_num) rfl rfl (by simp)).2.1 (by rfl)

/-- C7: a 200 response whose body has a null or absent errors array makes the
pipeline return the `data` value with no error and a single invocation (no
retry); an absent `data` key yields the empty mapping. -/
theorem success_returns_data_no_retry :
    ∀ (calls : ℕ) (period : ℚ) (st : LimiterState) (tm : AdmitTimes)
      (maxAttempts : ℕ) (q : String) (vars : Option (List (String × JsonVal)))
      (scenario : ℕ → HttpOutcome) (r : HttpResponse) (rd : JsonVal),
      1 ≤ maxAttempts → scenario 1 = HttpOutcome.http r → r.status = 200 →
      r.body = some rd →
      (jsonGet rd "errors" = none ∨ jsonGet rd "errors" = some JsonVal.null) →
      (executeQuery calls period st tm maxAttempts q vars scenario).result
          = Except.ok (getData rd) ∧
      (executeQuery calls period st tm maxAttempts q vars scenario).invocations = 1 ∧
      (jsonGet rd "data" = none → getData rd = JsonVal.obj []) := by
  intro calls period st tm maxAttempts q vars scenario r rd hmax hscen hst hbody herrs
  have hm : makeRequest q vars (scenario 1) = (complexityLogs rd, Except.ok rd) := by
    rw [hscen]
    obtain ⟨s0, hdr, body, setxt, detxt⟩ := r
    simp only at hst hbody
    subst hst
    subst hbody
    rcases herrs with h | h <;> simp [makeRequest, h, pyTruthy]
  have hr := retryLoop_first_success reqRetryable
    (fun i => makeRequest q vars (scenario i)) 1 (complexityLogs rd) rd hm
    maxAttempts hmax
  refine ⟨?_, ?_, ?_⟩
  · simp [executeQuery, rateLimitedRequest, executeWithRetry, hr, Except.map]
  · simp [executeQuery, rateLimitedRequest, executeWithRetry, hr]
  · intro hd
    simp [getData, hd]

/-- C7 witness: the spec's end-to-end scenario — a 200 body with
`data.items = []` and `errors = null` returns the data object after one
invocation. -/
theorem success_returns_data_no_retry_witness :
    (executeQuery 60 60 (initState 0) ⟨1, 2, 3⟩ 3 "q" none
        (fun _ => HttpOutcome.http
          { status := 200, retryAfterHeader := none,
            body := some (JsonVal.obj [("data", JsonVal.obj [("items", JsonVal.arr [])]),
              ("errors", JsonVal.null)]),
            statusErrText := "", decodeErrText := "" })).result
      = Except.ok (getData (JsonVal.obj [("data", JsonVal.obj [("items", JsonVal.arr [])]),
          ("errors", JsonVal.null)])) ∧
    (executeQuery 60 60 (initState 0) ⟨1, 2, 3⟩ 3 "q" none
        (fun _ => HttpOutcome.http
          { status := 200, retryAfterHeader := none,
            body := some (JsonVal.obj [("data", JsonVal.obj [("items", JsonVal.arr [])]),
              ("errors", JsonVal.null)]),
            statusErrText := "", decodeErrText := "" })).invocations = 1 :=
  ⟨(success_returns_data_no_retry 60 60 (initState 0) ⟨1, 2, 3⟩ 3 "q" none
      (fun _ => HttpOutcome.http
        { status := 200, retryAfterHeader := none,
          body := some (JsonVal.obj [("data", JsonVal.obj [("items", JsonVal.arr [])]),
            ("errors", JsonVal.null)]),
          statusErrText := "", decodeErrText := "" })
      { status := 200, retryAfterHeader := none,
        body := some (JsonVal.obj [("data", JsonVal.obj [("items", JsonVal.arr [])]),
          ("errors", JsonVal.null)]),
        statusErrText := "", decodeErrText := "" }
      (JsonVal.obj [("data", JsonVal.obj [("items", JsonVal.arr [])]),
        ("errors", JsonVal.null)])
      (by norm_num) rfl rfl rfl (Or.inr (by rfl))).1,
   (success_returns_data_no_retry 60 60 (initState 0) ⟨1, 2, 3⟩ 3 "q" none
      (fun _ => HttpOutcome.http
        { status := 200, retryAfterHeader := none,
          body := some (JsonVal.obj [("data", JsonVal.obj [("items", JsonVal.arr [])]),
            ("errors", JsonVal.null)]),
          statusErrText := "", decodeErrText := "" })
      { status := 200, retryAfterHeader := none,
        body := some (JsonVal.obj [("data", JsonVal.obj [("items", JsonVal.arr [])]),
          ("errors", JsonVal.null)]),
        statusErrText := "", decodeErrText := "" }
      (JsonVal.obj [("data", JsonVal.obj [("items", JsonVal.arr [])]),
        ("errors", JsonVal.null)])
      (by norm_num) rfl rfl rfl (Or.inr (by rfl))).2.1⟩

/-- C8 (counterexample): for a response carrying both a complexity sub-object
and a non-empty errors array, the complexity info and warning logs are
emitted before the classified error is raised — contradicting the claim that
the raise precedes complexity logging and suppresses it. -/
theorem complexity_logged_before_errors_raise :
    (makeRequest "q" none (HttpOutcome.http
        { status := 200, retryAfterHeader := none, body := some dualResponse,
          statusErrText := "", decodeErrText := "" })).1
      = [LogEvent.complexityInfo (JsonVal.num 500000) (JsonVal.num 400000),
         LogEvent.complexityWarning (JsonVal.num 400000) (JsonVal.num 30)] ∧
    (makeRequest "q" none (HttpOutcome.http
        { status := 200, retryAfterHeader := none, body := some dualResponse,
          statusErrText := "", decodeErrText := "" })).2
      = Except.error (RequestError.classified (ClassifiedError.apiError
          "GraphQL errors: some failure" (some dualResponse))) ∧
    ([LogEvent.complexityInfo (JsonVal.num 500000) (JsonVal.num 400000),
      LogEvent.complexityWarning (JsonVal.num 400000) (JsonVal.num 30)]
        : List LogEvent) ≠ [] := by
  refine ⟨by rfl, by rfl, by simp⟩

/-- C8 (amended): complexity extraction and logging precede the errors check:
for every 2xx response the emitted logs are exactly `complexityLogs` of the
parsed body, and a non-empty errors array then raises the classified error —
so a response with both yields the complexity logs and the raised error. -/
theorem complexity_logs_emitted_then_error_raised :
    ∀ (q : String) (vars : Option (List (String × JsonVal))) (r : HttpResponse)
      (rd : JsonVal) (errors : List JsonVal),
      200 ≤ r.status → r.status < 300 → r.body = some rd →
      jsonGet rd "errors" = some (JsonVal.arr errors) → errors ≠ [] →
      (makeRequest q vars (HttpOutcome.http r)).1 = complexityLogs rd ∧
      (makeRequest q vars (HttpOutcome.http r)).2
        = Except.error (RequestError.classified (classifyGraphQLErrors rd errors)) := by
  intro q vars r rd errors h1 h2 hbody herr hne
  obtain ⟨st, hdr, body, setxt, detxt⟩ := r
  simp only at h1 h2 hbody
  subst hbody
  cases errors with
  | nil => exact absurd rfl hne
  | cons e es =>
    constructor <;> simp [makeRequest, if_pos (And.intro h1 h2), herr, pyTruthy]

/-- C8 witness: the amended ordering evaluated at the dual response. -/
theorem complexity_logs_emitted_then_error_raised_witness :
    (makeRequest "q" none (HttpOutcome.http
        { status := 200, retryAfterHeader := none, body := some dualResponse,
          statusErrText := "", decodeErrText := "" })).1
      = complexityLogs dualResponse :=
  (complexity_logs_emitted_then_error_raised "q" none
      { status := 200, retryAfterHeader := none, body := some dualResponse,
        statusErrText := "", decodeErrText := "" }
      dualResponse [JsonVal.obj [("message", JsonVal.str "some failure")]]
      (by norm_num) (by norm_num) rfl rfl (by simp)).1

end MondayCli
